import Mathlib

/-
  Verification of the recursive objection-proof rewrite orchestrator
  (src/server/services/recursiveObjectionProofRewrite.ts).

  Shallow embedding conventions:
  * External collaborators (the Anthropic generation primitive and the
    crossChunkCoherence helpers, which live outside this file) are modelled
    as an `Env` record of fallible functions returning `Except String`.
    A thrown JS exception is modelled as `Except.error message`.
  * The module-level mutable `iterationStore` object is modelled as an
    association list threaded through the operations; JS property
    assignment is `storeSet`, lookup is `storeGet`.
  * Observable effects of a run are recorded in an event trace: each
    progress-observer notification (`onProgress?.(...)`), each pacing
    `setTimeout` suspension, and each call to the chunk-reconstruction
    collaborator (with the word budget passed to it).
  * JS `number` arithmetic on the small nonnegative integers involved
    (`Math.ceil`, `Math.floor`, `Math.round`) is modelled as exact
    arithmetic on `Nat`.
  * JS truthiness of optional request fields (`x || null`, `x ? a : b`)
    treats the empty string and 0 as absent; `jsOptStr` / `jsOptNat`
    encode this normalization.
  * `uuidv4()` and `new Date()` are external inputs and appear as the
    `iterationId` and `now` parameters of `performRecursiveRewrite`.
-/

set_option maxRecDepth 100000

/-- Status of one rewrite attempt, from the `status` field of
`ObjectionProofIteration`. -/
inductive IterationStatus where
  | processing
  | completed
  | failed
deriving DecidableEq, Repr

/-- Whole-document outline produced by the outline-extraction collaborator.
Opaque to the orchestrator. -/
structure GlobalSkeleton where
  outline : String
deriving DecidableEq, Repr

/-- Per-chunk change record returned by the reconstruction collaborator and
handed to the stitching collaborator. Opaque to the orchestrator. -/
structure ChunkDelta where
  summary : String
deriving DecidableEq, Repr

/-- One chunk as returned by the `smartChunk` collaborator; the orchestrator
only reads its `text` field. -/
structure Chunk where
  text : String
deriving DecidableEq, Repr

/-- Result of the stitching collaborator: the orchestrator only inspects the
`contradictions` list. -/
structure StitchResult where
  contradictions : List String
deriving DecidableEq, Repr

/-- Result of `parseTargetLength`: an embedded length directive. -/
structure TargetRange where
  targetMin : Nat
  targetMax : Nat
deriving DecidableEq, Repr

/-- Length-change mode of a `LengthConfig` (type `LengthMode` in the source). -/
inductive LengthMode where
  | heavy_compression
  | moderate_compression
  | maintain
  | moderate_expansion
  | heavy_expansion
deriving DecidableEq, Repr

/-- Resolved length configuration (interface `LengthConfig` in the source).
The orchestrator reads only `targetMid`; the other fields are passed through
to collaborators. -/
structure LengthConfig where
  targetMin : Nat
  targetMax : Nat
  targetMid : Nat
  lengthRatio : Rat
  lengthMode : LengthMode
  chunkTargetWords : Nat
deriving DecidableEq, Repr

/-- One content block of a generation response (`response.content[i]`). -/
inductive ContentBlock where
  | text (value : String)
  | other
deriving DecidableEq, Repr

/-- Result of the chunk-reconstruction collaborator. -/
structure ChunkOutput where
  outputText : String
  delta : ChunkDelta
deriving DecidableEq, Repr

/-- A processed chunk accumulated by the pipeline loop
(`{ text: result.outputText, delta: result.delta }`). -/
structure ProcessedChunk where
  text : String
  delta : ChunkDelta
deriving DecidableEq, Repr

/-- One rewrite attempt (interface `ObjectionProofIteration`).
`createdAt` is the timestamp passed in at creation. -/
structure ObjectionProofIteration where
  id : String
  parentId : Option String
  version : Nat
  inputText : String
  outputText : String
  wordCount : Nat
  targetWordCount : Option Nat
  customInstructions : Option String
  globalSkeleton : Option GlobalSkeleton
  status : IterationStatus
  createdAt : Nat
deriving DecidableEq, Repr

/-- A rewrite request (interface `RecursiveRewriteRequest`). Optional fields
are `Option`; JS falsiness of `""` and `0` is applied at use sites via
`jsOptStr` / `jsOptNat`. -/
structure RecursiveRewriteRequest where
  text : String
  targetWordCount : Option Nat
  customInstructions : Option String
  parentIterationId : Option String
deriving DecidableEq, Repr

/-- The `processingStats` object of a successful result. -/
structure ProcessingStats where
  inputWords : Nat
  outputWords : Nat
  chunksProcessed : Nat
  coherenceScore : String
deriving DecidableEq, Repr

/-- The value returned by `performRecursiveRewrite`:
`{success: true, iteration, processingStats}` or
`{success: false, iteration, error}`. -/
inductive RecursiveRewriteResult where
  | ok (iteration : ObjectionProofIteration) (processingStats : ProcessingStats)
  | err (iteration : ObjectionProofIteration) (error : String)
deriving DecidableEq, Repr

/-- The iteration carried by either variant of a result. -/
def RecursiveRewriteResult.iteration : RecursiveRewriteResult → ObjectionProofIteration
  | .ok it _ => it
  | .err it _ => it

/-- Observable effects of one orchestration run, in order:
progress notifications (`onProgress?.(phase, message, progress)`), the fixed
pacing suspension (`setTimeout(..., ms)`), and calls into the
chunk-reconstruction collaborator recording the word budget passed. -/
inductive Event where
  | progress (phase : String) (message : String) (percent : Option Nat)
  | sleep (ms : Nat)
  | reconstructCall (index : Nat) (total : Nat) (budget : Nat)
deriving DecidableEq, Repr

/-- True exactly on pacing-suspension events. -/
def isSleepEv : Event → Bool
  | .sleep _ => true
  | _ => false

/-- True exactly on chunk-reconstruction call events. -/
def isCallEv : Event → Bool
  | .reconstructCall _ _ _ => true
  | _ => false

/-- External collaborators consumed by the orchestrator. `onProgress` models
the optional progress observer (an absent observer is the function that
always returns `Except.ok ()`); an observer that throws is modelled by an
`Except.error` return and, as in the source, is not distinguished from any
other failure. -/
structure Env where
  onProgress : String → String → Option Nat → Except String Unit
  parseTargetLength : Option String → Except String (Option TargetRange)
  calculateLengthConfig : Nat → Option Nat → Option Nat → Option String → Except String LengthConfig
  createMessage : String → Nat → Rat → String → Except String (List ContentBlock)
  extractGlobalSkeleton : String → Option String → Except String GlobalSkeleton
  smartChunk : String → Except String (List Chunk)
  reconstructChunkConstrained : String → Nat → Nat → GlobalSkeleton → Nat → LengthConfig → Except String ChunkOutput
  stitchAndValidate : GlobalSkeleton → List ProcessedChunk → Except String (String × StitchResult)

/-- The module-level `iterationStore`, modelled as an association list from
id to iteration (insertion order preserved, as for JS object keys). -/
abbrev IterationStore := List (String × ObjectionProofIteration)

/-- JS property lookup `store[id]` (as `Option`). -/
def storeGet : IterationStore → String → Option ObjectionProofIteration
  | [], _ => none
  | (k, v) :: rest, id => if k = id then some v else storeGet rest id

/-- JS property assignment `store[id] = it`: overwrite in place, or append a
new key at the end. -/
def storeSet : IterationStore → String → ObjectionProofIteration → IterationStore
  | [], id, it => [(id, it)]
  | (k, v) :: rest, id, it =>
    if k = id then (id, it) :: rest else (k, v) :: storeSet rest id it

/-- JS truthiness of an optional string (`s || null`, `s ? _ : _`): the empty
string counts as absent. -/
def jsOptStr : Option String → Option String
  | some s => if s = "" then none else some s
  | none => none

/-- JS truthiness of an optional number (`n || null`, `n ? _ : _`): 0 counts
as absent. -/
def jsOptNat : Option Nat → Option Nat
  | some n => if n = 0 then none else some n
  | none => none

/-- Splits a character list at every whitespace character, keeping empty
fields (the fields of `text.split(/\s+/)` are the nonempty ones among
these, and the source filters the empty ones out right after). -/
def wordsAux : List Char → List Char → List (List Char)
  | [], acc => [acc.reverse]
  | c :: cs, acc =>
    if c.isWhitespace then acc.reverse :: wordsAux cs []
    else wordsAux cs (c :: acc)

/-- `countWords`: `text.split(/\s+/).filter((w) => w.length > 0).length`,
i.e. the number of maximal runs of non-whitespace characters. -/
def countWords (text : String) : Nat :=
  ((wordsAux text.data []).filter (fun w => w.length > 0)).length

/-- JS `String.prototype.trim()`: drop leading and trailing whitespace. -/
def jsTrim (s : String) : String :=
  String.mk (((s.data.dropWhile Char.isWhitespace).reverse.dropWhile Char.isWhitespace).reverse)

/-- `const PRIMARY_MODEL` from the source. -/
def PRIMARY_MODEL : String := "claude-sonnet-4-5-20250929"

/-- `const SHORT_TEXT_THRESHOLD = 1500`. -/
def SHORT_TEXT_THRESHOLD : Nat := 1500

/-- `const TARGET_CHUNK_SIZE = 800` (declared in the source; the chunk size
itself is the chunking collaborator\x27s concern). -/
def TARGET_CHUNK_SIZE : Nat := 800

/-- The iteration object created at the start of `performRecursiveRewrite`
(source lines 57-71): `parentId = request.parentIterationId || null`;
`version = request.parentIterationId ?
(iterationStore[request.parentIterationId]?.version || 0) + 1 : 1`. -/
def mkIteration (iterationId : String) (now : Nat) (request : RecursiveRewriteRequest)
    (store : IterationStore) : ObjectionProofIteration :=
  { id := iterationId
    parentId := jsOptStr request.parentIterationId
    version :=
      match jsOptStr request.parentIterationId with
      | some pid => ((storeGet store pid).map (fun p => p.version)).getD 0 + 1
      | none => 1
    inputText := request.text
    outputText := ""
    wordCount := countWords request.text
    targetWordCount := jsOptNat request.targetWordCount
    customInstructions := jsOptStr request.customInstructions
    globalSkeleton := none
    status := .processing
    createdAt := now }

/-- `targetMin` resolution (source lines 79-81):
`request.targetWordCount ? Math.round(request.targetWordCount * 0.9) :
parsedTarget?.targetMin || null`, with `Math.round` on the exact rational. -/
def resolveTargetMin (request : RecursiveRewriteRequest) (parsedTarget : Option TargetRange) :
    Option Nat :=
  match jsOptNat request.targetWordCount with
  | some t => some ((9 * t + 5) / 10)
  | none => jsOptNat (parsedTarget.map (fun r => r.targetMin))

/-- `targetMax` resolution (source lines 82-84):
`request.targetWordCount ? Math.round(request.targetWordCount * 1.1) :
parsedTarget?.targetMax || null`. -/
def resolveTargetMax (request : RecursiveRewriteRequest) (parsedTarget : Option TargetRange) :
    Option Nat :=
  match jsOptNat request.targetWordCount with
  | some t => some ((11 * t + 5) / 10)
  | none => jsOptNat (parsedTarget.map (fun r => r.targetMax))

/-- The prompt template of `processShortText` (source lines 216-233). -/
def shortTextPrompt (text : String) (targetWords : Nat) (customInstructions : Option String) :
    String :=
  "You are rewriting text to make it stronger against objections while maintaining coherence.\n\nINPUT TEXT:\n"
    ++ text
    ++ "\n\nTARGET WORD COUNT: approximately " ++ toString targetWords ++ " words\n\n"
    ++ (match customInstructions with
        | some ci => "CUSTOM INSTRUCTIONS:\n" ++ ci ++ "\n"
        | none => "")
    ++ "\n\nREWRITE REQUIREMENTS:\n1. Maintain the original argument\x27s structure and flow\n2. Strengthen weak points that could be challenged\n3. Add necessary qualifications and evidence\n4. Preserve key terminology and concepts\n5. Ensure logical coherence throughout\n6. Hit the target word count (within 10%)\n\nOUTPUT: Provide ONLY the rewritten text, no meta-commentary or explanations."

/-- `processShortText` (source lines 209-246): one generation call at fixed
model, `max_tokens: 8000`, `temperature: 0.3`; the first content block is
used if textual, anything else degrades to the empty string, and an empty
content array makes the property access `response.content[0].type` throw
a TypeError; the output is whitespace-trimmed. -/
def processShortText (env : Env) (text : String) (targetWords : Nat)
    (customInstructions : Option String) : Except String String :=
  match env.createMessage PRIMARY_MODEL 8000 (3 / 10 : Rat)
      (shortTextPrompt text targetWords customInstructions) with
  | .error e => .error e
  | .ok [] => .error "Cannot read properties of undefined"
  | .ok (block :: _) =>
    .ok (jsTrim (match block with
      | .text s => s
      | .other => ""))

/-- The progress percentage before chunk `i` of `numChunks` (source line
141): `20 + Math.floor(((i + 1) / numChunks) * 60)`, on exact rationals. -/
def chunkProgressPct (i numChunks : Nat) : Nat :=
  20 + 60 * (i + 1) / numChunks

/-- The progress-notification message for chunk `i` of `numChunks`. -/
def chunkMsg (i numChunks : Nat) : String :=
  "Processing chunk " ++ toString (i + 1) ++ " of " ++ toString numChunks ++ "..."

/-- The progress event emitted before processing chunk `i`. -/
def evChunkProgress (i numChunks : Nat) : Event :=
  .progress "processing" (chunkMsg i numChunks) (some (chunkProgressPct i numChunks))

/-- Progress event of the `initializing` phase. -/
def evInitializing : Event :=
  .progress "initializing" "Starting recursive objection-proof rewrite..." (some 0)

/-- Progress event of the short-text `processing` phase. -/
def evShortProcessing : Event :=
  .progress "processing" "Processing short text directly..." (some 30)

/-- Progress event of the `skeleton` phase. -/
def evSkeleton : Event :=
  .progress "skeleton" "Extracting global skeleton for coherence..." (some 10)

/-- Progress event of the `chunking` phase. -/
def evChunking : Event :=
  .progress "chunking" "Chunking text for processing..." (some 20)

/-- Progress event of the `stitching` phase. -/
def evStitching : Event :=
  .progress "stitching" "Running global consistency check..." (some 85)

/-- Progress event of the `finalizing` phase. -/
def evFinalizing : Event :=
  .progress "finalizing" "Finalizing output..." (some 95)

/-- The per-chunk loop (source lines 138-170). For each chunk, in order:
compute the word budget `Math.ceil(targetMid / numChunks)`, notify progress,
call the reconstruction collaborator, accumulate the (unused afterwards)
running word count, and between chunks - never after the last - suspend for
the fixed 1.5-second pacing interval. Any failure aborts the loop. -/
def chunkLoop (env : Env) (lengthConfig : LengthConfig) (skeleton : GlobalSkeleton)
    (numChunks : Nat) :
    List Chunk → Nat → Nat → List Event × Except String (List ProcessedChunk)
  | [], _, _ => ([], .ok [])
  | chunk :: rest, i, runningWordCount =>
    let chunkTargetWords := lengthConfig.targetMid ⌈/⌉ numChunks
    match env.onProgress "processing" (chunkMsg i numChunks) (some (chunkProgressPct i numChunks)) with
    | .error e => ([evChunkProgress i numChunks], .error e)
    | .ok _ =>
      match env.reconstructChunkConstrained chunk.text i numChunks skeleton chunkTargetWords lengthConfig with
      | .error e =>
        ([evChunkProgress i numChunks, .reconstructCall i numChunks chunkTargetWords], .error e)
      | .ok result =>
        let pacing : List Event := if rest.isEmpty then [] else [Event.sleep 1500]
        match chunkLoop env lengthConfig skeleton numChunks rest (i + 1)
            (runningWordCount + countWords result.outputText) with
        | (evs, .error e) =>
          (evChunkProgress i numChunks :: Event.reconstructCall i numChunks chunkTargetWords :: (pacing ++ evs),
           .error e)
        | (evs, .ok results) =>
          (evChunkProgress i numChunks :: Event.reconstructCall i numChunks chunkTargetWords :: (pacing ++ evs),
           .ok (⟨result.outputText, result.delta⟩ :: results))

/-- The value of one orchestration call: the returned result, the iteration
store after the call, and the trace of observable events. -/
structure RunResult where
  result : RecursiveRewriteResult
  store : IterationStore
  events : List Event
deriving Repr

/-- The single top-level catch (source lines 195-206): mark the iteration
`failed`, reset its output to the empty string, write it back to the store,
and return `{success: false, iteration, error: error.message || "Processing
failed"}`. -/
def failReturn (store1 : IterationStore) (iterationId : String)
    (it : ObjectionProofIteration) (evs : List Event) (msg : String) : RunResult :=
  let failed := { it with status := .failed, outputText := "" }
  ⟨.err failed (if msg = "" then "Processing failed" else msg),
   storeSet store1 iterationId failed, evs⟩

/-- `performRecursiveRewrite` (source lines 50-207). The iteration is created
and registered with status `processing`; the body runs under a single
top-level catch. Short texts (`inputWords < SHORT_TEXT_THRESHOLD`) take the
one-shot path; otherwise the chunked pipeline runs: skeleton extraction,
chunking, the per-chunk loop, then stitching and validation. -/
def performRecursiveRewrite (env : Env) (iterationId : String) (now : Nat)
    (request : RecursiveRewriteRequest) (store : IterationStore) : RunResult :=
  match env.onProgress "initializing" "Starting recursive objection-proof rewrite..." (some 0) with
  | .error e =>
    failReturn (storeSet store iterationId (mkIteration iterationId now request store)) iterationId
      (mkIteration iterationId now request store) [evInitializing] e
  | .ok _ =>
  match env.parseTargetLength (jsOptStr request.customInstructions) with
  | .error e =>
    failReturn (storeSet store iterationId (mkIteration iterationId now request store)) iterationId
      (mkIteration iterationId now request store) [evInitializing] e
  | .ok parsedTarget =>
  match env.calculateLengthConfig (countWords request.text)
      (resolveTargetMin request parsedTarget) (resolveTargetMax request parsedTarget)
      (jsOptStr request.customInstructions) with
  | .error e =>
    failReturn (storeSet store iterationId (mkIteration iterationId now request store)) iterationId
      (mkIteration iterationId now request store) [evInitializing] e
  | .ok lengthConfig =>
  if countWords request.text < SHORT_TEXT_THRESHOLD then
    match env.onProgress "processing" "Processing short text directly..." (some 30) with
    | .error e =>
      failReturn (storeSet store iterationId (mkIteration iterationId now request store)) iterationId
        (mkIteration iterationId now request store) [evInitializing, evShortProcessing] e
    | .ok _ =>
    match processShortText env request.text lengthConfig.targetMid
        (jsOptStr request.customInstructions) with
    | .error e =>
      failReturn (storeSet store iterationId (mkIteration iterationId now request store)) iterationId
        (mkIteration iterationId now request store) [evInitializing, evShortProcessing] e
    | .ok output =>
      ⟨.ok { mkIteration iterationId now request store with
              outputText := output, wordCount := countWords output, status := .completed }
          ⟨countWords request.text, countWords output, 1, "short-text"⟩,
       storeSet (storeSet store iterationId (mkIteration iterationId now request store)) iterationId
         { mkIteration iterationId now request store with
            outputText := output, wordCount := countWords output, status := .completed },
       [evInitializing, evShortProcessing]⟩
  else
    match env.onProgress "skeleton" "Extracting global skeleton for coherence..." (some 10) with
    | .error e =>
      failReturn (storeSet store iterationId (mkIteration iterationId now request store)) iterationId
        (mkIteration iterationId now request store) [evInitializing, evSkeleton] e
    | .ok _ =>
    match env.extractGlobalSkeleton request.text (jsOptStr request.customInstructions) with
    | .error e =>
      failReturn (storeSet store iterationId (mkIteration iterationId now request store)) iterationId
        (mkIteration iterationId now request store) [evInitializing, evSkeleton] e
    | .ok skeleton =>
    match env.onProgress "chunking" "Chunking text for processing..." (some 20) with
    | .error e =>
      failReturn (storeSet store iterationId (mkIteration iterationId now request store)) iterationId
        { mkIteration iterationId now request store with globalSkeleton := some skeleton }
        [evInitializing, evSkeleton, evChunking] e
    | .ok _ =>
    match env.smartChunk request.text with
    | .error e =>
      failReturn (storeSet store iterationId (mkIteration iterationId now request store)) iterationId
        { mkIteration iterationId now request store with globalSkeleton := some skeleton }
        [evInitializing, evSkeleton, evChunking] e
    | .ok chunks =>
    match chunkLoop env lengthConfig skeleton chunks.length chunks 0 0 with
    | (loopEvs, .error e) =>
      failReturn (storeSet store iterationId (mkIteration iterationId now request store)) iterationId
        { mkIteration iterationId now request store with globalSkeleton := some skeleton }
        ([evInitializing, evSkeleton, evChunking] ++ loopEvs) e
    | (loopEvs, .ok processedChunks) =>
    match env.onProgress "stitching" "Running global consistency check..." (some 85) with
    | .error e =>
      failReturn (storeSet store iterationId (mkIteration iterationId now request store)) iterationId
        { mkIteration iterationId now request store with globalSkeleton := some skeleton }
        ([evInitializing, evSkeleton, evChunking] ++ loopEvs ++ [evStitching]) e
    | .ok _ =>
    match env.stitchAndValidate skeleton processedChunks with
    | .error e =>
      failReturn (storeSet store iterationId (mkIteration iterationId now request store)) iterationId
        { mkIteration iterationId now request store with globalSkeleton := some skeleton }
        ([evInitializing, evSkeleton, evChunking] ++ loopEvs ++ [evStitching]) e
    | .ok (finalOutput, stitchResult) =>
    match env.onProgress "finalizing" "Finalizing output..." (some 95) with
    | .error e =>
      failReturn (storeSet store iterationId (mkIteration iterationId now request store)) iterationId
        { mkIteration iterationId now request store with globalSkeleton := some skeleton }
        ([evInitializing, evSkeleton, evChunking] ++ loopEvs ++ [evStitching, evFinalizing]) e
    | .ok _ =>
      ⟨.ok { mkIteration iterationId now request store with
              globalSkeleton := some skeleton, outputText := finalOutput,
              wordCount := countWords finalOutput, status := .completed }
          ⟨countWords request.text, countWords finalOutput, chunks.length,
           if stitchResult.contradictions.length = 0 then "pass" else "needs_review"⟩,
       storeSet (storeSet store iterationId (mkIteration iterationId now request store)) iterationId
         { mkIteration iterationId now request store with
            globalSkeleton := some skeleton, outputText := finalOutput,
            wordCount := countWords finalOutput, status := .completed },
       [evInitializing, evSkeleton, evChunking] ++ loopEvs ++ [evStitching, evFinalizing]⟩

/-- `getIteration` (source lines 249-251): lookup or not-found. -/
def getIteration (store : IterationStore) (id : String) : Option ObjectionProofIteration :=
  storeGet store id

/-- The `while (current)` walk of `getIterationHistory` (source lines
256-268): unshift the current iteration, then follow `parentId` (JS
truthiness: an empty-string parent id counts as no parent). The `fuel`
argument is only a termination device: the source diverges on a cyclic
parent chain, and the fuel chosen in `getIterationHistory` is large enough
that the walk is truncated only in that (diverging) case. -/
def historyLoop (store : IterationStore) :
    Nat → Option ObjectionProofIteration → List ObjectionProofIteration →
    List ObjectionProofIteration
  | _, none, history => history
  | 0, some _, history => history
  | fuel + 1, some current, history =>
    match jsOptStr current.parentId with
    | some pid => historyLoop store fuel (storeGet store pid) (current :: history)
    | none => current :: history

/-- `getIterationHistory` (source lines 253-269): the ordered chain from the
root ancestor to the queried id, following `parentId`; the walk stops
silently at a missing parent, and returns empty for an unknown id. -/
def getIterationHistory (store : IterationStore) (currentId : String) :
    List ObjectionProofIteration :=
  historyLoop store (store.length + 1) (storeGet store currentId) []

/-- `clearIterationStore` (source lines 271-273): delete every key. -/
def clearIterationStore (_store : IterationStore) : IterationStore := []

/-
  Concrete test fixtures used by the witness theorems below.
-/

/-- A concrete input text of exactly 1500 words (forcing the chunked path). -/
def bigText : String := "a a a a a a a a a a a a a a a a a a a a a a a a a a a a a a a a a a a a a a a a a a a a a a a a a a a a a a a a a a a a a a a a a a a a a a a a a a a a a a a a a a a a a a a a a a a a a a a a a a a a a a a a a a a a a a a a a a a a a a a a a a a a a a a a a a a a a a a a a a a a a a a a a a a a a a a a a a a a a a a a a a a a a a a a a a a a a a a a a a a a a a a a a a a a a a a a a a a a a a a a a a a a a a a a a a a a a a a a a a a a a a a a a a a a a a a a a a a a a a a a a a a a a a a a a a a a a a a a a a a a a a a a a a a a a a a a a a a a a a a a a a a a a a a a a a a a a a a a a a a a a a a a a a a a a a a a a a a a a a a a a a a a a a a a a a a a a a a a a a a a a a a a a a a a a a a a a a a a a a a a a a a a a a a a a a a a a a a a a a a a a a a a a a a a a a a a a a a a a a a a a a a a a a a a a a a a a a a a a a a a a a a a a a a a a a a a a a a a a a a a a a a a a a a a a a a a a a a a a a a a a a a a a a a a a a a a a a a a a a a a a a a a a a a a a a a a a a a a a a a a a a a a a a a a a a a a a a a a a a a a a a a a a a a a a a a a a a a a a a a a a a a a a a a a a a a a a a a a a a a a a a a a a a a a a a a a a a a a a a a a a a a a a a a a a a a a a a a a a a a a a a a a a a a a a a a a a a a a a a a a a a a a a a a a a a a a a a a a a a a a a a a a a a a a a a a a a a a a a a a a a a a a a a a a a a a a a a a a a a a a a a a a a a a a a a a a a a a a a a a a a a a a a a a a a a a a a a a a a a a a a a a a a a a a a a a a a a a a a a a a a a a a a a a a a a a a a a a a a a a a a a a a a a a a a a a a a a a a a a a a a a a a a a a a a a a a a a a a a a a a a a a a a a a a a a a a a a a a a a a a a a a a a a a a a a a a a a a a a a a a a a a a a a a a a a a a a a a a a a a a a a a a a a a a a a a a a a a a a a a a a a a a a a a a a a a a a a a a a a a a a a a a a a a a a a a a a a a a a a a a a a a a a a a a a a a a a a a a a a a a a a a a a a a a a a a a a a a a a a a a a a a a a a a a a a a a a a a a a a a a a a a a a a a a a a a a a a a a a a a a a a a a a a a a a a a a a a a a a a a a a a a a a a a a a a a a a a a a a a a a a a a a a a a a a a a a a a a a a a a a a a a a a a a a a a a a a a a a a a a a a a a a a a a a a a a a a a a a a a a a a a a a a a a a a a a a a a a a a a a a a a a a a a a a a a a a a a a a a a a a a a a a a a a a a a a a a a a a a a a a a a a a a a a a a a a a a a a a a a a a a a a a a a a a a a a a a a a a a a a a a a a a a a a a a a a a a a a a a a a a a a a a a a a a a a a a a a a a a a a a a a a a a a a a a a a a a a a a a a a a a a a a a a a a a a a a a a a a a a a a a a a a a a a a a a a a a a a a a a a a a a a a a a a a a a a a a a a a a a a a a a a a a a a a a a a a a a a a a a a a a a a a a a a a a a a a a a a a a a a a a a a a a a a a a a a a a a a a a a a a a a a a a a a a a a a a a a a a a a a a a a a a a a a a a a a a a a a a a a a a a a a a a a a a a a a a a a a a a a a a a a a a a a a a a a a a a a a a a a a a a a a a a a a a a a a a a a a a a a a a a a a a a a a a a a a a a a a a a a a a"

/-- A concrete skeleton returned by the test outline collaborator. -/
def testSkeleton : GlobalSkeleton := ⟨"outline"⟩

/-- A concrete chunk delta returned by the test reconstruction collaborator. -/
def testDelta : ChunkDelta := ⟨"delta"⟩

/-- The chunk sequence returned by the test chunking collaborator. -/
def chunksT : List Chunk := [⟨"c1"⟩, ⟨"c2"⟩]

/-- A concrete length configuration (as produced by `envShortOk` on a
1500-word input with no explicit targets). -/
def cfgT : LengthConfig := ⟨1500, 1500, 1500, 1, .maintain, 800⟩

/-- An environment in which every collaborator succeeds. -/
def envShortOk : Env where
  onProgress := fun _ _ _ => .ok ()
  parseTargetLength := fun _ => .ok none
  calculateLengthConfig := fun inputWords mn mx _ =>
    .ok ⟨mn.getD inputWords, mx.getD inputWords, inputWords, 1, .maintain, 800⟩
  createMessage := fun _ _ _ _ => .ok [ContentBlock.text " Strengthened argument. "]
  extractGlobalSkeleton := fun _ _ => .ok testSkeleton
  smartChunk := fun _ => .ok chunksT
  reconstructChunkConstrained := fun t _ _ _ _ _ => .ok ⟨"r " ++ t, testDelta⟩
  stitchAndValidate := fun _ _ => .ok ("the final output", ⟨[]⟩)

/-- An environment whose chunking collaborator returns 5 chunks and whose
reconstruction collaborator throws on the 3rd chunk (index 2). -/
def envFailMid : Env where
  onProgress := fun _ _ _ => .ok ()
  parseTargetLength := fun _ => .ok none
  calculateLengthConfig := fun inputWords mn mx _ =>
    .ok ⟨mn.getD inputWords, mx.getD inputWords, inputWords, 1, .maintain, 800⟩
  createMessage := fun _ _ _ _ => .ok [ContentBlock.text " Strengthened argument. "]
  extractGlobalSkeleton := fun _ _ => .ok testSkeleton
  smartChunk := fun _ => .ok [⟨"k1"⟩, ⟨"k2"⟩, ⟨"k3"⟩, ⟨"k4"⟩, ⟨"k5"⟩]
  reconstructChunkConstrained := fun t i _ _ _ _ =>
    if i = 2 then .error "chunk 3 failed" else .ok ⟨"r " ++ t, testDelta⟩
  stitchAndValidate := fun _ _ => .ok ("the final output", ⟨[]⟩)

/-- A short rewrite request (2 input words). -/
def reqShort : RecursiveRewriteRequest := ⟨"hello world", none, none, none⟩

/-- A request whose text has 1500 words. -/
def reqBig : RecursiveRewriteRequest := ⟨bigText, none, none, none⟩

/-- A short request naming the registered parent `p1`. -/
def reqChild : RecursiveRewriteRequest := ⟨"hello world", none, none, some "p1"⟩

/-- A registered parent iteration with version 3. -/
def parentIter : ObjectionProofIteration :=
  ⟨"p1", none, 3, "seed text", "done", 2, none, none, none, .completed, 0⟩

/-- A store holding only `parentIter`. -/
def storeParent : IterationStore := [("p1", parentIter)]

/-- A root iteration (no parent). -/
def rootIter : ObjectionProofIteration :=
  ⟨"r1", none, 1, "t", "o", 1, none, none, none, .completed, 0⟩

/-- A child iteration of `rootIter`. -/
def childIter : ObjectionProofIteration :=
  ⟨"c1", some "r1", 2, "t2", "o2", 1, none, none, none, .completed, 0⟩

/-- A two-generation lineage store. -/
def storeLineage : IterationStore := [("r1", rootIter), ("c1", childIter)]

/-- The iteration produced by the successful short run of the witnesses. -/
def itShort : ObjectionProofIteration :=
  ⟨"s1", none, 1, "hello world", "Strengthened argument.", 2, none, none, none, .completed, 0⟩

/-- The stats produced by the successful short run of the witnesses. -/
def statsShort : ProcessingStats := ⟨2, 2, 1, "short-text"⟩

/-- The iteration produced by the successful chunked run of the witnesses. -/
def itBig : ObjectionProofIteration :=
  ⟨"b1", none, 1, bigText, "the final output", 3, none, none, some testSkeleton, .completed, 0⟩

/-- The stats produced by the successful chunked run of the witnesses. -/
def statsBig : ProcessingStats := ⟨1500, 3, 2, "pass"⟩

/-- The failed iteration produced by the `envFailMid` run of the witnesses. -/
def itFailMid : ObjectionProofIteration :=
  ⟨"f1", none, 1, bigText, "", 1500, none, none, some testSkeleton, .failed, 0⟩

/-- The chunk-loop event trace of the witnesses' chunked run. -/
def evsT : List Event :=
  [evChunkProgress 0 2, .reconstructCall 0 2 750, .sleep 1500,
   evChunkProgress 1 2, .reconstructCall 1 2 750]

/-- The processed chunks of the witnesses' chunked run. -/
def psT : List ProcessedChunk := [⟨"r c1", testDelta⟩, ⟨"r c2", testDelta⟩]

/-
  Store lemmas.
-/

/-- Writing a key makes it readable. -/
theorem storeGet_storeSet_self (s : IterationStore) (id : String)
    (it : ObjectionProofIteration) : storeGet (storeSet s id it) id = some it := by
  induction s with
  | nil => simp [storeSet, storeGet]
  | cons kv rest ih =>
    obtain ⟨k, v⟩ := kv
    by_cases h : k = id
    · simp [storeSet, storeGet, h]
    · simp [storeSet, storeGet, h, ih]

/-- Writing one key leaves every other key unchanged. -/
theorem storeGet_storeSet_ne {s : IterationStore} {id k : String}
    {it : ObjectionProofIteration} (h : k ≠ id) :
    storeGet (storeSet s id it) k = storeGet s k := by
  induction s with
  | nil => simp [storeSet, storeGet, Ne.symm h]
  | cons kv rest ih =>
    obtain ⟨k1, v1⟩ := kv
    by_cases h1 : k1 = id
    · subst h1
      simp [storeSet, storeGet, Ne.symm h]
    · simp only [storeSet, if_neg h1, storeGet]
      by_cases h2 : k1 = k
      · simp [h2]
      · simp [h2, ih]

/-
  History-walk lemmas.
-/

/-- The accumulator of `historyLoop` is a passive suffix of its result. -/
theorem historyLoop_acc (store : IterationStore) :
    ∀ (fuel : Nat) (ocur : Option ObjectionProofIteration)
      (hist : List ObjectionProofIteration),
      historyLoop store fuel ocur hist = historyLoop store fuel ocur [] ++ hist := by
  intro fuel
  induction fuel with
  | zero => intro ocur hist; cases ocur <;> simp [historyLoop]
  | succ f ih =>
    intro ocur hist
    cases ocur with
    | none => simp [historyLoop]
    | some cur =>
      cases h : jsOptStr cur.parentId with
      | some pid =>
        simp only [historyLoop, h]
        rw [ih (storeGet store pid) (cur :: hist), ih (storeGet store pid) [cur]]
        simp
      | none => simp [historyLoop, h]

/-- A walk started at an iteration puts that iteration last. -/
theorem historyLoop_ends (store : IterationStore) (fuel : Nat)
    (cur : ObjectionProofIteration) :
    ∃ pre, historyLoop store (fuel + 1) (some cur) [] = pre ++ [cur] := by
  cases h : jsOptStr cur.parentId with
  | some pid =>
    refine ⟨historyLoop store fuel (storeGet store pid) [], ?_⟩
    simp only [historyLoop, h]
    exact historyLoop_acc store fuel (storeGet store pid) [cur]
  | none =>
    refine ⟨[], ?_⟩
    simp [historyLoop, h]

/-- C5: `getIterationHistory` returns the parent chain root-first, ending in
the queried iteration: (1) for any registered id the returned sequence ends
in that iteration; (2) for a two-generation lineage root→child it returns
exactly `[root, child]`; (3) if the queried iteration references a parent id
absent from the registry the walk stops right there, returning just the
queried iteration rather than an error; (4) likewise one level deeper: a
grandparent id absent from the registry stops the walk after the parent. -/
theorem history_chain_spec :
    (∀ (s : IterationStore) (id : String) (it : ObjectionProofIteration),
        storeGet s id = some it →
        (getIterationHistory s id).getLast? = some it)
  ∧ (∀ (s : IterationStore) (cid rid : String)
        (child root : ObjectionProofIteration),
        storeGet s cid = some child → jsOptStr child.parentId = some rid →
        storeGet s rid = some root → jsOptStr root.parentId = none →
        getIterationHistory s cid = [root, child])
  ∧ (∀ (s : IterationStore) (cid rid : String) (child : ObjectionProofIteration),
        storeGet s cid = some child → jsOptStr child.parentId = some rid →
        storeGet s rid = none →
        getIterationHistory s cid = [child])
  ∧ (∀ (s : IterationStore) (cid rid gid : String)
        (child mid : ObjectionProofIteration),
        storeGet s cid = some child → jsOptStr child.parentId = some rid →
        storeGet s rid = some mid → jsOptStr mid.parentId = some gid →
        storeGet s gid = none →
        getIterationHistory s cid = [mid, child]) := by
  refine ⟨?_, ?_, ?_, ?_⟩
  · intro s id it h
    rw [getIterationHistory, h]
    obtain ⟨pre, hp⟩ := historyLoop_ends s s.length it
    rw [hp]
    exact List.getLast?_concat pre
  · intro s cid rid child root hc hcp hr hrp
    cases s with
    | nil => simp [storeGet] at hc
    | cons kv tl =>
      rw [getIterationHistory, hc]
      simp only [List.length_cons]
      simp only [historyLoop, hcp, hr, hrp]
  · intro s cid rid child hc hcp hr
    rw [getIterationHistory, hc]
    simp only [historyLoop, hcp, hr]
  · intro s cid rid gid child mid hc hcp hr hmp hg
    cases s with
    | nil => simp [storeGet] at hc
    | cons kv tl =>
      rw [getIterationHistory, hc]
      simp only [List.length_cons]
      simp only [historyLoop, hcp, hr, hmp, hg]

/-- C5 witness: the two-generation lineage `rootIter → childIter`. -/
theorem history_chain_spec_witness :
    getIterationHistory storeLineage "c1" = [rootIter, childIter] :=
  history_chain_spec.2.1 storeLineage "c1" "r1" childIter rootIter
    (by rfl) (by rfl) (by rfl) (by rfl)

/-- C10: for an id absent from the registry (never created, or removed by a
registry clear), `getIterationHistory` returns the empty sequence rather
than an error or a not-found signal; after `clearIterationStore` every id is
in that situation. -/
theorem missing_id_history :
    (∀ (s : IterationStore) (id : String),
        storeGet s id = none → getIterationHistory s id = [])
  ∧ (∀ (s : IterationStore) (id : String),
        getIteration (clearIterationStore s) id = none ∧
        getIterationHistory (clearIterationStore s) id = []) := by
  constructor
  · intro s id h
    rw [getIterationHistory, h]
    rfl
  · intro s id
    exact ⟨rfl, rfl⟩

/-- C10 witness: an id never stored in the lineage registry. -/
theorem missing_id_history_witness :
    getIterationHistory storeLineage "zzz" = [] :=
  missing_id_history.1 storeLineage "zzz" (by rfl)

/-
  Creation-time fields of the returned iteration.
-/

/-- Whatever the run\x27s outcome, the iteration it returns keeps the
`version` computed at creation time. -/
theorem result_iteration_version (env : Env) (id : String) (now : Nat)
    (req : RecursiveRewriteRequest) (store : IterationStore) :
    ((performRecursiveRewrite env id now req store).result.iteration).version
      = (mkIteration id now req store).version := by
  unfold performRecursiveRewrite
  repeat' split
  all_goals simp [failReturn, RecursiveRewriteResult.iteration]

/-- C4: the version of the iteration created by `performRecursiveRewrite` is
the registered parent\x27s stored version + 1 when the request names a parent
id present in the registry, and 1 both when no parent is given and when the
named parent id is absent from the registry (the missing parent silently
falls back to version 1). -/
theorem version_lineage :
    (∀ (env : Env) (id : String) (now : Nat) (req : RecursiveRewriteRequest)
        (store : IterationStore) (pid : String) (p : ObjectionProofIteration),
        jsOptStr req.parentIterationId = some pid →
        storeGet store pid = some p →
        ((performRecursiveRewrite env id now req store).result.iteration).version
          = p.version + 1)
  ∧ (∀ (env : Env) (id : String) (now : Nat) (req : RecursiveRewriteRequest)
        (store : IterationStore),
        jsOptStr req.parentIterationId = none →
        ((performRecursiveRewrite env id now req store).result.iteration).version = 1)
  ∧ (∀ (env : Env) (id : String) (now : Nat) (req : RecursiveRewriteRequest)
        (store : IterationStore) (pid : String),
        jsOptStr req.parentIterationId = some pid →
        storeGet store pid = none →
        ((performRecursiveRewrite env id now req store).result.iteration).version = 1) := by
  refine ⟨?_, ?_, ?_⟩
  · intro env id now req store pid p h1 h2
    rw [result_iteration_version]
    simp [mkIteration, h1, h2]
  · intro env id now req store h1
    rw [result_iteration_version]
    simp [mkIteration, h1]
  · intro env id now req store pid h1 h2
    rw [result_iteration_version]
    simp [mkIteration, h1, h2]

/-- C4 witness: a child of the registered parent `p1` (stored version 3)
gets version 4. -/
theorem version_lineage_witness :
    ((performRecursiveRewrite envShortOk "c2" 0 reqChild storeParent).result.iteration).version
      = parentIter.version + 1 :=
  version_lineage.1 envShortOk "c2" 0 reqChild storeParent "p1" parentIter
    (by rfl) (by rfl)

/-- Characterization of a successful short-text run: the collaborators the
short path consults, and the exact iteration, stats, events, and store it
produces. -/
theorem run_short_ok (env : Env) (id : String) (now : Nat)
    (req : RecursiveRewriteRequest) (store : IterationStore)
    (it : ObjectionProofIteration) (stats : ProcessingStats)
    (hlt : countWords req.text < SHORT_TEXT_THRESHOLD)
    (hok : (performRecursiveRewrite env id now req store).result = .ok it stats) :
    ∃ pt cfg output,
      env.parseTargetLength (jsOptStr req.customInstructions) = .ok pt ∧
      env.calculateLengthConfig (countWords req.text) (resolveTargetMin req pt)
        (resolveTargetMax req pt) (jsOptStr req.customInstructions) = .ok cfg ∧
      processShortText env req.text cfg.targetMid (jsOptStr req.customInstructions) = .ok output ∧
      it = { mkIteration id now req store with
              outputText := output, wordCount := countWords output,
              status := .completed } ∧
      stats = ⟨countWords req.text, countWords output, 1, "short-text"⟩ ∧
      (performRecursiveRewrite env id now req store).events = [evInitializing, evShortProcessing] ∧
      (performRecursiveRewrite env id now req store).store =
        storeSet (storeSet store id (mkIteration id now req store)) id it := by
  cases hR : performRecursiveRewrite env id now req store with
  | mk res st evs =>
  rw [hR] at hok
  simp only at hok ⊢
  unfold performRecursiveRewrite at hR
  repeat' (split at hR)
  all_goals simp_all [failReturn]
  all_goals (obtain ⟨⟨hit, hstats⟩, hst, hevs⟩ := hR; rw [← hst, hit])

/-- Characterization of a successful chunked run: the collaborators the
pipeline consults in order, and the exact iteration, stats, events, and
store it produces. -/
theorem run_chunked_ok (env : Env) (id : String) (now : Nat)
    (req : RecursiveRewriteRequest) (store : IterationStore)
    (it : ObjectionProofIteration) (stats : ProcessingStats)
    (hge : ¬ countWords req.text < SHORT_TEXT_THRESHOLD)
    (hok : (performRecursiveRewrite env id now req store).result = .ok it stats) :
    ∃ pt cfg sk chunks loopEvs processed finalOutput stitchRes,
      env.parseTargetLength (jsOptStr req.customInstructions) = .ok pt ∧
      env.calculateLengthConfig (countWords req.text) (resolveTargetMin req pt)
        (resolveTargetMax req pt) (jsOptStr req.customInstructions) = .ok cfg ∧
      env.extractGlobalSkeleton req.text (jsOptStr req.customInstructions) = .ok sk ∧
      env.smartChunk req.text = .ok chunks ∧
      chunkLoop env cfg sk chunks.length chunks 0 0 = (loopEvs, .ok processed) ∧
      env.stitchAndValidate sk processed = .ok (finalOutput, stitchRes) ∧
      it = { mkIteration id now req store with
              globalSkeleton := some sk, outputText := finalOutput,
              wordCount := countWords finalOutput, status := .completed } ∧
      stats = ⟨countWords req.text, countWords finalOutput, chunks.length,
               if stitchRes.contradictions.length = 0 then "pass" else "needs_review"⟩ ∧
      (performRecursiveRewrite env id now req store).events =
        [evInitializing, evSkeleton, evChunking] ++ loopEvs ++ [evStitching, evFinalizing] ∧
      (performRecursiveRewrite env id now req store).store =
        storeSet (storeSet store id (mkIteration id now req store)) id it := by
  cases hR : performRecursiveRewrite env id now req store with
  | mk res st evs =>
  rw [hR] at hok
  simp only at hok ⊢
  unfold performRecursiveRewrite at hR
  split at hR
  · exfalso; simp_all [failReturn]
  next _ _ _ =>
  split at hR
  · exfalso; simp_all [failReturn]
  next _ pt hpt =>
  split at hR
  · exfalso; simp_all [failReturn]
  next _ cfg hcfg =>
  split at hR
  · simp_all
  next hnotshort =>
  split at hR
  · exfalso; simp_all [failReturn]
  next _ _ _ =>
  split at hR
  · exfalso; simp_all [failReturn]
  next _ sk hsk =>
  split at hR
  · exfalso; simp_all [failReturn]
  next _ _ _ =>
  split at hR
  · exfalso; simp_all [failReturn]
  next _ chunks hch =>
  split at hR
  · exfalso; simp_all [failReturn]
  next _ loopEvs processed hloop =>
  split at hR
  · exfalso; simp_all [failReturn]
  next _ _ _ =>
  split at hR
  · exfalso; simp_all [failReturn]
  next _ fo sr hstitch =>
  split at hR
  · exfalso; simp_all [failReturn]
  next _ _ _ =>
  injection hR with h1 h2 h3
  subst h1
  subst h2
  subst h3
  injection hok with h4 h5
  subst h4
  subst h5
  exact ⟨pt, cfg, sk, chunks, loopEvs, processed, fo, sr, hpt, hcfg, hsk, hch, hloop,
    hstitch, rfl, rfl, rfl, rfl⟩

/-- Characterization of a failed run: the returned iteration is `failed`
with empty output and its creation-time word count, and it is what the
registry holds under the run\x27s id. -/
theorem run_err_spec (env : Env) (id : String) (now : Nat)
    (req : RecursiveRewriteRequest) (store : IterationStore)
    (it : ObjectionProofIteration) (e : String)
    (herr : (performRecursiveRewrite env id now req store).result = .err it e) :
    it.status = .failed ∧ it.outputText = "" ∧ it.wordCount = countWords req.text ∧
    it.inputText = req.text ∧
    storeGet (performRecursiveRewrite env id now req store).store id = some it := by
  cases hR : performRecursiveRewrite env id now req store with
  | mk res st evs =>
  rw [hR] at herr
  simp only at herr ⊢
  unfold performRecursiveRewrite at hR
  repeat' (split at hR)
  all_goals simp_all [failReturn, mkIteration]
  all_goals obtain ⟨⟨hit, he⟩, hst, hevs⟩ := hR
  all_goals subst hit
  all_goals rw [← hst]
  all_goals simp [storeGet_storeSet_self]

/-- A run writes only its own key: every other key of the registry is left
unchanged. -/
theorem run_store_other (env : Env) (id : String) (now : Nat)
    (req : RecursiveRewriteRequest) (store : IterationStore) (k : String)
    (hk : k ≠ id) :
    storeGet (performRecursiveRewrite env id now req store).store k = storeGet store k := by
  cases hR : performRecursiveRewrite env id now req store with
  | mk res st evs =>
  simp only
  unfold performRecursiveRewrite at hR
  repeat' (split at hR)
  all_goals simp only [failReturn] at hR
  all_goals injection hR with h1 h2 h3
  all_goals subst h2
  all_goals simp [storeGet_storeSet_ne hk]

/-- A successful run returns a `completed` iteration and registers it. -/
theorem run_ok_spec (env : Env) (id : String) (now : Nat)
    (req : RecursiveRewriteRequest) (store : IterationStore)
    (it : ObjectionProofIteration) (stats : ProcessingStats)
    (hok : (performRecursiveRewrite env id now req store).result = .ok it stats) :
    it.status = .completed ∧
    storeGet (performRecursiveRewrite env id now req store).store id = some it := by
  by_cases hlt : countWords req.text < SHORT_TEXT_THRESHOLD
  · obtain ⟨pt, cfg, output, _, _, _, hit, _, _, hst⟩ :=
      run_short_ok env id now req store it stats hlt hok
    refine ⟨by rw [hit], ?_⟩
    rw [hst]
    exact storeGet_storeSet_self _ _ _
  · obtain ⟨pt, cfg, sk, chunks, loopEvs, processed, fo, sr, _, _, _, _, _, _, hit, _, _, hst⟩ :=
      run_chunked_ok env id now req store it stats hlt hok
    refine ⟨by rw [hit], ?_⟩
    rw [hst]
    exact storeGet_storeSet_self _ _ _

/-- C3: any exception thrown during processing (length resolution, outline,
any chunk, stitching, or a throwing progress observer) is caught exactly
once at the top level: the call returns `{success: false, iteration,
error}`, the iteration\x27s status is `failed`, its `outputText` is reset to
the empty string (already-computed chunk output is discarded, and
`wordCount` still reflects the input), and the registry holds that failed
iteration under the run\x27s id. -/
theorem failure_collapse :
    ∀ (env : Env) (id : String) (now : Nat) (req : RecursiveRewriteRequest)
      (store : IterationStore) (it : ObjectionProofIteration) (e : String),
      (performRecursiveRewrite env id now req store).result = .err it e →
      it.status = .failed ∧ it.outputText = "" ∧
      it.wordCount = countWords req.text ∧ it.inputText = req.text ∧
      storeGet (performRecursiveRewrite env id now req store).store id = some it := by
  intro env id now req store it e herr
  exact run_err_spec env id now req store it e herr

/-- C3 witness: a 5-chunk run whose 3rd chunk (index 2) throws. -/
theorem failure_collapse_witness :
    itFailMid.status = .failed ∧ itFailMid.outputText = "" ∧
    itFailMid.wordCount = countWords reqBig.text ∧ itFailMid.inputText = reqBig.text ∧
    storeGet (performRecursiveRewrite envFailMid "f1" 0 reqBig []).store "f1" = some itFailMid :=
  failure_collapse envFailMid "f1" 0 reqBig [] itFailMid "chunk 3 failed" (by rfl)

/-- C9: an iteration is created with status `processing`, and each run moves
it exactly once to a terminal status: `completed` on success, `failed` on
failure, as also recorded in the registry; a run touches no other
registered iteration, so no operation moves a status out of a terminal
state or back into `processing`. -/
theorem status_lifecycle :
    (∀ (id : String) (now : Nat) (req : RecursiveRewriteRequest) (store : IterationStore),
        (mkIteration id now req store).status = .processing)
  ∧ (∀ (env : Env) (id : String) (now : Nat) (req : RecursiveRewriteRequest)
        (store : IterationStore) (it : ObjectionProofIteration) (stats : ProcessingStats),
        (performRecursiveRewrite env id now req store).result = .ok it stats →
        it.status = .completed ∧
        storeGet (performRecursiveRewrite env id now req store).store id = some it)
  ∧ (∀ (env : Env) (id : String) (now : Nat) (req : RecursiveRewriteRequest)
        (store : IterationStore) (it : ObjectionProofIteration) (e : String),
        (performRecursiveRewrite env id now req store).result = .err it e →
        it.status = .failed ∧
        storeGet (performRecursiveRewrite env id now req store).store id = some it)
  ∧ (∀ (env : Env) (id : String) (now : Nat) (req : RecursiveRewriteRequest)
        (store : IterationStore) (k : String), k ≠ id →
        storeGet (performRecursiveRewrite env id now req store).store k = storeGet store k) := by
  refine ⟨?_, ?_, ?_, ?_⟩
  · intro id now req store; rfl
  · intro env id now req store it stats hok
    exact run_ok_spec env id now req store it stats hok
  · intro env id now req store it e herr
    obtain ⟨h1, _, _, _, h5⟩ := run_err_spec env id now req store it e herr
    exact ⟨h1, h5⟩
  · intro env id now req store k hk
    exact run_store_other env id now req store k hk

/-- C9 witness: the short run ends `completed` and registered. -/
theorem status_lifecycle_witness :
    itShort.status = .completed ∧
    storeGet (performRecursiveRewrite envShortOk "s1" 0 reqShort []).store "s1" = some itShort :=
  status_lifecycle.2.1 envShortOk "s1" 0 reqShort [] itShort statsShort (by rfl)

/-- C1: a request under the 1500-word short-text threshold takes the
short-text path (one `processShortText` call whose output becomes the
iteration\x27s text) and, on success, returns stats with
`chunksProcessed = 1` and `coherenceScore = "short-text"`, the iteration
being `completed`. -/
theorem short_text_result :
    ∀ (env : Env) (id : String) (now : Nat) (req : RecursiveRewriteRequest)
      (store : IterationStore) (it : ObjectionProofIteration) (stats : ProcessingStats),
      countWords req.text < SHORT_TEXT_THRESHOLD →
      (performRecursiveRewrite env id now req store).result = .ok it stats →
      stats.chunksProcessed = 1 ∧ stats.coherenceScore = "short-text" ∧
      it.status = .completed ∧ stats.inputWords = countWords req.text ∧
      stats.outputWords = countWords it.outputText ∧
      ∃ pt cfg,
        env.parseTargetLength (jsOptStr req.customInstructions) = .ok pt ∧
        env.calculateLengthConfig (countWords req.text) (resolveTargetMin req pt)
          (resolveTargetMax req pt) (jsOptStr req.customInstructions) = .ok cfg ∧
        processShortText env req.text cfg.targetMid (jsOptStr req.customInstructions) =
          .ok it.outputText := by
  intro env id now req store it stats hlt hok
  obtain ⟨pt, cfg, output, hpt, hcfg, hshort, hit, hstats, _, _⟩ :=
    run_short_ok env id now req store it stats hlt hok
  subst hit
  subst hstats
  exact ⟨rfl, rfl, rfl, rfl, rfl, pt, cfg, hpt, hcfg, hshort⟩

/-- C1 witness: a 2-word request through the all-ok environment. -/
theorem short_text_result_witness :
    statsShort.chunksProcessed = 1 ∧ statsShort.coherenceScore = "short-text" ∧
    itShort.status = .completed ∧ statsShort.inputWords = countWords reqShort.text ∧
    statsShort.outputWords = countWords itShort.outputText ∧
    ∃ pt cfg,
      envShortOk.parseTargetLength (jsOptStr reqShort.customInstructions) = .ok pt ∧
      envShortOk.calculateLengthConfig (countWords reqShort.text)
        (resolveTargetMin reqShort pt) (resolveTargetMax reqShort pt)
        (jsOptStr reqShort.customInstructions) = .ok cfg ∧
      processShortText envShortOk reqShort.text cfg.targetMid
        (jsOptStr reqShort.customInstructions) = .ok itShort.outputText :=
  short_text_result envShortOk "s1" 0 reqShort [] itShort statsShort (by decide) (by rfl)

/-- C2: a successful run at or above the 1500-word threshold returns stats
whose `chunksProcessed` equals the length of the chunk sequence returned by
the chunking collaborator, and whose `coherenceScore` is `"pass"` iff the
stitching collaborator\x27s contradiction list is empty (else
`"needs_review"`). -/
theorem chunked_result_stats :
    ∀ (env : Env) (id : String) (now : Nat) (req : RecursiveRewriteRequest)
      (store : IterationStore) (it : ObjectionProofIteration) (stats : ProcessingStats)
      (chunks : List Chunk),
      ¬ countWords req.text < SHORT_TEXT_THRESHOLD →
      (performRecursiveRewrite env id now req store).result = .ok it stats →
      env.smartChunk req.text = .ok chunks →
      stats.chunksProcessed = chunks.length ∧
      ∃ sk processed finalOutput stitchRes,
        env.extractGlobalSkeleton req.text (jsOptStr req.customInstructions) = .ok sk ∧
        env.stitchAndValidate sk processed = .ok (finalOutput, stitchRes) ∧
        it.outputText = finalOutput ∧
        (stats.coherenceScore = "pass" ↔ stitchRes.contradictions = []) ∧
        (stats.coherenceScore = "needs_review" ↔ stitchRes.contradictions ≠ []) := by
  intro env id now req store it stats chunks hge hok hch
  obtain ⟨pt, cfg, sk, chunks2, loopEvs, processed, fo, sr,
    hpt, hcfg, hsk, hch2, hloop, hstitch, hit, hstats, _, _⟩ :=
    run_chunked_ok env id now req store it stats hge hok
  have hcc : chunks2 = chunks := Except.ok.inj (hch2.symm.trans hch)
  subst hcc
  subst hit
  subst hstats
  refine ⟨rfl, sk, processed, fo, sr, hsk, hstitch, rfl, ?_, ?_⟩
  · by_cases hc : sr.contradictions = []
    · simp [hc]
    · have hlen : sr.contradictions.length ≠ 0 := by
        simpa [List.length_eq_zero] using hc
      simp +decide [hlen, hc]
  · by_cases hc : sr.contradictions = []
    · have hlen : sr.contradictions.length = 0 := by simp [hc]
      simp +decide [hlen, hc]
    · have hlen : sr.contradictions.length ≠ 0 := by
        simpa [List.length_eq_zero] using hc
      simp +decide [hlen, hc]

/-- C2 witness: the 1500-word request through the all-ok environment with a
2-chunk split and an empty contradiction list. -/
theorem chunked_result_stats_witness :
    statsBig.chunksProcessed = chunksT.length ∧
    ∃ sk processed finalOutput stitchRes,
      envShortOk.extractGlobalSkeleton reqBig.text (jsOptStr reqBig.customInstructions) = .ok sk ∧
      envShortOk.stitchAndValidate sk processed = .ok (finalOutput, stitchRes) ∧
      itBig.outputText = finalOutput ∧
      (statsBig.coherenceScore = "pass" ↔ stitchRes.contradictions = []) ∧
      (statsBig.coherenceScore = "needs_review" ↔ stitchRes.contradictions ≠ []) :=
  chunked_result_stats envShortOk "b1" 0 reqBig [] itBig statsBig chunksT
    (by decide) (by rfl) (by rfl)

/-- A chunk progress event is not a reconstruction-call event. -/
theorem isCallEv_evChunkProgress (i n : Nat) : isCallEv (evChunkProgress i n) = false := rfl

/-- A chunk progress event is not a pacing event. -/
theorem isSleepEv_evChunkProgress (i n : Nat) : isSleepEv (evChunkProgress i n) = false := rfl

/-- Index shift for the expected reconstruction-call sequence. -/
theorem map_call_shift (i m n B : Nat) :
    List.map (fun k => Event.reconstructCall (i + 1 + k) n B) (List.range m) =
    List.map ((fun k => Event.reconstructCall (i + k) n B) ∘ Nat.succ) (List.range m) := by
  apply List.map_congr_left
  intro a _
  simp only [Function.comp_apply]
  congr 1
  omega

/-- Master description of a successful chunk loop: its call events are one
per chunk in order with the shared budget, its sleeps are exactly the fixed
pacing events interspersed strictly between calls, and each chunk\x27s
progress event immediately precedes that chunk\x27s call. -/
theorem chunkLoop_ok_spec (env : Env) (cfg : LengthConfig) (sk : GlobalSkeleton) (n : Nat) :
    ∀ (chunks : List Chunk) (i r : Nat) (evs : List Event) (ps : List ProcessedChunk),
      chunkLoop env cfg sk n chunks i r = (evs, .ok ps) →
      evs.filter isCallEv =
        (List.range chunks.length).map
          (fun k => Event.reconstructCall (i + k) n (cfg.targetMid ⌈/⌉ n)) ∧
      evs.filter isSleepEv = List.replicate (chunks.length - 1) (Event.sleep 1500) ∧
      evs.filter (fun e => isCallEv e || isSleepEv e) =
        List.intersperse (Event.sleep 1500) (evs.filter isCallEv) ∧
      (∀ k, k < chunks.length →
        List.IsInfix [evChunkProgress (i + k) n,
          Event.reconstructCall (i + k) n (cfg.targetMid ⌈/⌉ n)] evs) := by
  intro chunks
  induction chunks with
  | nil =>
    intro i r evs ps h
    simp only [chunkLoop, Prod.mk.injEq] at h
    obtain ⟨h1, h2⟩ := h
    subst h1
    simp
  | cons chunk rest ih =>
    intro i r evs ps h
    simp only [chunkLoop] at h
    split at h
    · simp at h
    next _ =>
    split at h
    · simp at h
    next result hrec =>
    split at h
    next evs2 e2 heq2 => simp at h
    next evs2 results heq2 =>
    rw [Prod.mk.injEq] at h
    obtain ⟨h1, h2⟩ := h
    subst h1
    injection h2 with h3
    subst h3
    obtain ⟨ih1, ih2, ih3, ih4⟩ := ih (i + 1) (r + countWords result.outputText) evs2 results heq2
    rcases rest with _ | ⟨c2, rest2⟩
    · simp only [chunkLoop, Prod.mk.injEq] at heq2
      obtain ⟨hev2, hres2⟩ := heq2
      subst hev2
      refine ⟨?_, ?_, ?_, ?_⟩
      · simp [evChunkProgress, isCallEv, List.range_succ]
      · simp [evChunkProgress, isSleepEv, isCallEv]
      · simp [evChunkProgress, isCallEv, isSleepEv, List.intersperse]
      · intro k hk
        have hk0 : k = 0 := by simpa using Nat.lt_one_iff.mp (by simpa using hk)
        subst hk0
        exact ⟨[], [], by simp⟩
    · have hpac : ((c2 :: rest2 : List Chunk).isEmpty) = false := rfl
      refine ⟨?_, ?_, ?_, ?_⟩
      · have hlhs : List.filter isCallEv
            (evChunkProgress i n :: Event.reconstructCall i n (cfg.targetMid ⌈/⌉ n) ::
              ((if (c2 :: rest2 : List Chunk).isEmpty then ([] : List Event)
                else [Event.sleep 1500]) ++ evs2)) =
            Event.reconstructCall i n (cfg.targetMid ⌈/⌉ n) :: List.filter isCallEv evs2 := by
          simp [evChunkProgress, isCallEv, isSleepEv]
        rw [hlhs, ih1]
        simp only [List.length_cons]
        conv_rhs => rw [List.range_succ_eq_map]
        rw [List.map_cons, List.map_map]
        simp only [Nat.add_zero]
        rw [map_call_shift]
      · have hlhs : List.filter isSleepEv
            (evChunkProgress i n :: Event.reconstructCall i n (cfg.targetMid ⌈/⌉ n) ::
              ((if (c2 :: rest2 : List Chunk).isEmpty then ([] : List Event)
                else [Event.sleep 1500]) ++ evs2)) =
            Event.sleep 1500 :: List.filter isSleepEv evs2 := by
          simp [evChunkProgress, isSleepEv, isCallEv]
        rw [hlhs, ih2]
        simp [List.replicate_succ]
      · have hlhs : List.filter (fun e => isCallEv e || isSleepEv e)
            (evChunkProgress i n :: Event.reconstructCall i n (cfg.targetMid ⌈/⌉ n) ::
              ((if (c2 :: rest2 : List Chunk).isEmpty then ([] : List Event)
                else [Event.sleep 1500]) ++ evs2)) =
            Event.reconstructCall i n (cfg.targetMid ⌈/⌉ n) :: Event.sleep 1500 ::
              List.filter (fun e => isCallEv e || isSleepEv e) evs2 := by
          simp [evChunkProgress, isSleepEv, isCallEv]
        have hfc : List.filter isCallEv
            (evChunkProgress i n :: Event.reconstructCall i n (cfg.targetMid ⌈/⌉ n) ::
              ((if (c2 :: rest2 : List Chunk).isEmpty then ([] : List Event)
                else [Event.sleep 1500]) ++ evs2)) =
            Event.reconstructCall i n (cfg.targetMid ⌈/⌉ n) :: List.filter isCallEv evs2 := by
          simp [evChunkProgress, isCallEv, isSleepEv]
        rw [hlhs, hfc, ih3, ih1]
        simp only [List.length_cons]
        rw [List.range_succ_eq_map, List.map_cons, List.intersperse_cons_cons]
      · intro k hk
        cases k with
        | zero =>
          exact ⟨[], (if (c2 :: rest2 : List Chunk).isEmpty then ([] : List Event)
            else [Event.sleep 1500]) ++ evs2, by simp⟩
        | succ k =>
          have hk2 : k < (c2 :: rest2 : List Chunk).length := by
            simp only [List.length_cons] at hk ⊢
            omega
          obtain ⟨s, t, hst⟩ := ih4 k hk2
          have hidx : i + (k + 1) = i + 1 + k := by omega
          rw [hidx]
          refine ⟨evChunkProgress i n :: Event.reconstructCall i n (cfg.targetMid ⌈/⌉ n) ::
            Event.sleep 1500 :: s, t, ?_⟩
          rw [hpac]
          simp only [if_neg]
          rw [← hst]
          simp

/-- In any chunk loop (successful or aborted), every reconstruction call
recorded in the trace carries the shared budget `targetMid ⌈/⌉ numChunks`
and the loop\x27s chunk count. -/
theorem chunkLoop_call_budget (env : Env) (cfg : LengthConfig) (sk : GlobalSkeleton) (n : Nat) :
    ∀ (chunks : List Chunk) (i r : Nat) (evs : List Event)
      (res : Except String (List ProcessedChunk)),
      chunkLoop env cfg sk n chunks i r = (evs, res) →
      ∀ idx total b, Event.reconstructCall idx total b ∈ evs →
        b = cfg.targetMid ⌈/⌉ n ∧ total = n := by
  intro chunks
  induction chunks with
  | nil =>
    intro i r evs res h idx total b hmem
    rw [chunkLoop, Prod.mk.injEq] at h
    obtain ⟨h1, _⟩ := h
    subst h1
    simp at hmem
  | cons chunk rest ih =>
    intro i r evs res h idx total b hmem
    simp only [chunkLoop] at h
    split at h
    next e heq =>
      rw [Prod.mk.injEq] at h
      obtain ⟨h1, _⟩ := h
      subst h1
      simp [evChunkProgress] at hmem
    next _ =>
    split at h
    next e heq =>
      rw [Prod.mk.injEq] at h
      obtain ⟨h1, _⟩ := h
      subst h1
      simp only [List.mem_cons, List.mem_singleton] at hmem
      rcases hmem with h2 | h2 | h2
      · exact absurd h2 (by simp [evChunkProgress])
      · injection h2 with ha hb hc
        exact ⟨hc, hb⟩
      · simp at h2
    next result hrec =>
    split at h
    next evs2 e2 heq2 =>
      rw [Prod.mk.injEq] at h
      obtain ⟨h1, _⟩ := h
      subst h1
      simp only [List.mem_cons, List.mem_append] at hmem
      rcases hmem with h2 | h2 | h2 | h2
      · exact absurd h2 (by simp [evChunkProgress])
      · injection h2 with ha hb hc
        exact ⟨hc, hb⟩
      · exfalso
        rcases rest.isEmpty with _ | _ <;> simp_all
      · exact ih (i + 1) (r + countWords result.outputText) evs2 (.error e2) heq2 idx total b h2
    next evs2 results heq2 =>
      rw [Prod.mk.injEq] at h
      obtain ⟨h1, _⟩ := h
      subst h1
      simp only [List.mem_cons, List.mem_append] at hmem
      rcases hmem with h2 | h2 | h2 | h2
      · exact absurd h2 (by simp [evChunkProgress])
      · injection h2 with ha hb hc
        exact ⟨hc, hb⟩
      · exfalso
        rcases rest.isEmpty with _ | _ <;> simp_all
      · exact ih (i + 1) (r + countWords result.outputText) evs2 (.ok results) heq2 idx total b h2

/-- C6: in a chunked run with `n` chunks, exactly `n - 1` fixed 1.5-second
pacing suspensions occur: the loop trace restricted to calls and sleeps is
the call sequence with single sleeps interspersed (so one sleep between
each pair of consecutive chunk-reconstruction calls, never after the last),
and the whole successful run\x27s trace contains exactly
`chunks.length - 1` sleeps, all of 1500 ms. -/
theorem pacing_schedule :
    (∀ (env : Env) (cfg : LengthConfig) (sk : GlobalSkeleton) (n : Nat)
        (chunks : List Chunk) (i r : Nat) (evs : List Event) (ps : List ProcessedChunk),
        chunkLoop env cfg sk n chunks i r = (evs, .ok ps) →
        evs.filter isSleepEv = List.replicate (chunks.length - 1) (Event.sleep 1500) ∧
        evs.filter (fun e => isCallEv e || isSleepEv e) =
          List.intersperse (Event.sleep 1500) (evs.filter isCallEv))
  ∧ (∀ (env : Env) (id : String) (now : Nat) (req : RecursiveRewriteRequest)
        (store : IterationStore) (it : ObjectionProofIteration) (stats : ProcessingStats)
        (chunks : List Chunk),
        ¬ countWords req.text < SHORT_TEXT_THRESHOLD →
        (performRecursiveRewrite env id now req store).result = .ok it stats →
        env.smartChunk req.text = .ok chunks →
        (performRecursiveRewrite env id now req store).events.filter isSleepEv =
          List.replicate (chunks.length - 1) (Event.sleep 1500)) := by
  constructor
  · intro env cfg sk n chunks i r evs ps h
    obtain ⟨_, h2, h3, _⟩ := chunkLoop_ok_spec env cfg sk n chunks i r evs ps h
    exact ⟨h2, h3⟩
  · intro env id now req store it stats chunks hge hok hch
    obtain ⟨pt, cfg, sk, chunks2, loopEvs, processed, fo, sr,
      hpt, hcfg, hsk, hch2, hloop, hstitch, hit, hstats, hevs, hst⟩ :=
      run_chunked_ok env id now req store it stats hge hok
    have hcc : chunks = chunks2 := Except.ok.inj (hch.symm.trans hch2)
    subst hcc
    rw [hevs]
    obtain ⟨_, h2, _, _⟩ :=
      chunkLoop_ok_spec env cfg sk chunks.length chunks 0 0 loopEvs processed hloop
    simp [List.filter_append, h2, evInitializing, evSkeleton, evChunking,
      evStitching, evFinalizing, isSleepEv]

/-- C6 witness: the 2-chunk run contains exactly one 1500 ms pacing sleep. -/
theorem pacing_schedule_witness :
    (performRecursiveRewrite envShortOk "b1" 0 reqBig []).events.filter isSleepEv =
      List.replicate (chunksT.length - 1) (Event.sleep 1500) :=
  pacing_schedule.2 envShortOk "b1" 0 reqBig [] itBig statsBig chunksT
    (by decide) (by rfl) (by rfl)

/-- C7: every word budget passed to the chunk-reconstruction collaborator in
a run equals `targetMid ⌈/⌉ numChunks` - the same value for every chunk,
independent of each chunk\x27s own size - where `⌈/⌉` is exact ceiling
division: the least `k` with `targetMid ≤ numChunks * k`. -/
theorem chunk_budget_uniform :
    (∀ (env : Env) (cfg : LengthConfig) (sk : GlobalSkeleton) (n : Nat)
        (chunks : List Chunk) (i r : Nat) (evs : List Event)
        (res : Except String (List ProcessedChunk)) (idx total b : Nat),
        chunkLoop env cfg sk n chunks i r = (evs, res) →
        Event.reconstructCall idx total b ∈ evs →
        b = cfg.targetMid ⌈/⌉ n ∧ total = n)
  ∧ (∀ (m n : Nat), 0 < n →
        m ≤ n * (m ⌈/⌉ n) ∧ ∀ k, m ≤ n * k → m ⌈/⌉ n ≤ k)
  ∧ (∀ (env : Env) (id : String) (now : Nat) (req : RecursiveRewriteRequest)
        (store : IterationStore) (it : ObjectionProofIteration) (stats : ProcessingStats)
        (pt : Option TargetRange) (cfg : LengthConfig) (chunks : List Chunk)
        (idx total b : Nat),
        ¬ countWords req.text < SHORT_TEXT_THRESHOLD →
        (performRecursiveRewrite env id now req store).result = .ok it stats →
        env.parseTargetLength (jsOptStr req.customInstructions) = .ok pt →
        env.calculateLengthConfig (countWords req.text) (resolveTargetMin req pt)
          (resolveTargetMax req pt) (jsOptStr req.customInstructions) = .ok cfg →
        env.smartChunk req.text = .ok chunks →
        Event.reconstructCall idx total b ∈ (performRecursiveRewrite env id now req store).events →
        b = cfg.targetMid ⌈/⌉ chunks.length ∧ total = chunks.length) := by
  refine ⟨?_, ?_, ?_⟩
  · intro env cfg sk n chunks i r evs res idx total b h hmem
    exact chunkLoop_call_budget env cfg sk n chunks i r evs res h idx total b hmem
  · intro m n hn
    constructor
    · have := le_smul_ceilDiv (b := m) hn
      simpa using this
    · intro k hk
      rw [ceilDiv_le_iff_le_smul hn]
      simpa using hk
  · intro env id now req store it stats pt cfg chunks idx total b hge hok hpt hcfg hch hmem
    obtain ⟨pt2, cfg2, sk, chunks2, loopEvs, processed, fo, sr,
      hpt2, hcfg2, hsk, hch2, hloop, hstitch, hit, hstats, hevs, hst⟩ :=
      run_chunked_ok env id now req store it stats hge hok
    have h1 : pt = pt2 := Except.ok.inj (hpt.symm.trans hpt2)
    subst h1
    have h2 : cfg = cfg2 := Except.ok.inj (hcfg.symm.trans hcfg2)
    subst h2
    have h3 : chunks = chunks2 := Except.ok.inj (hch.symm.trans hch2)
    subst h3
    rw [hevs] at hmem
    simp only [List.append_assoc, List.mem_append, List.mem_cons,
      List.mem_singleton, List.not_mem_nil] at hmem
    rcases hmem with (h4 | h4 | h4 | h4) | h4 | h4 | h4
    · exact absurd h4 (by simp [evInitializing])
    · exact absurd h4 (by simp [evSkeleton])
    · exact absurd h4 (by simp [evChunking])
    · simp at h4
    · exact chunkLoop_call_budget env cfg sk chunks.length chunks 0 0 loopEvs
        (.ok processed) hloop idx total b h4
    · exact absurd h4 (by simp [evStitching])
    · exact absurd h4 (by simp [evFinalizing])

/-- C7 witness: both chunks of the 2-chunk loop get budget 750 = ⌈1500/2⌉. -/
theorem chunk_budget_uniform_witness :
    (750 = cfgT.targetMid ⌈/⌉ 2 ∧ 2 = 2) ∧
    (1500 ≤ 2 * (1500 ⌈/⌉ 2) ∧ ∀ k, 1500 ≤ 2 * k → 1500 ⌈/⌉ 2 ≤ k) :=
  ⟨chunk_budget_uniform.1 envShortOk cfgT testSkeleton 2 chunksT 0 0 evsT (.ok psT)
      0 2 750 (by rfl) (by simp [evsT]),
   chunk_budget_uniform.2.1 1500 2 (by decide)⟩

/-- C8: before each chunk `i` of `n` is processed, a progress notification
is emitted (the progress event immediately precedes that chunk\x27s
reconstruction call), and its percentage `20 + ⌊60(i+1)/n⌋` is linearly
interpolated between 20 and 80 across the chunk sequence, reaching exactly
80 at the last chunk. -/
theorem chunk_progress_interpolation :
    (∀ (env : Env) (cfg : LengthConfig) (sk : GlobalSkeleton) (n : Nat)
        (chunks : List Chunk) (i r : Nat) (evs : List Event) (ps : List ProcessedChunk),
        chunkLoop env cfg sk n chunks i r = (evs, .ok ps) →
        ∀ k, k < chunks.length →
          List.IsInfix [evChunkProgress (i + k) n,
            Event.reconstructCall (i + k) n (cfg.targetMid ⌈/⌉ n)] evs)
  ∧ (∀ i n : Nat, 0 < n → i < n →
        20 ≤ chunkProgressPct i n ∧ chunkProgressPct i n ≤ 80)
  ∧ (∀ n : Nat, 0 < n → chunkProgressPct (n - 1) n = 80)
  ∧ (∀ (env : Env) (id : String) (now : Nat) (req : RecursiveRewriteRequest)
        (store : IterationStore) (it : ObjectionProofIteration) (stats : ProcessingStats)
        (chunks : List Chunk),
        ¬ countWords req.text < SHORT_TEXT_THRESHOLD →
        (performRecursiveRewrite env id now req store).result = .ok it stats →
        env.smartChunk req.text = .ok chunks →
        ∀ k, k < chunks.length → ∃ budget,
          List.IsInfix [evChunkProgress k chunks.length,
            Event.reconstructCall k chunks.length budget]
            (performRecursiveRewrite env id now req store).events) := by
  refine ⟨?_, ?_, ?_, ?_⟩
  · intro env cfg sk n chunks i r evs ps h k hk
    exact (chunkLoop_ok_spec env cfg sk n chunks i r evs ps h).2.2.2 k hk
  · intro i n hn hi
    constructor
    · exact Nat.le_add_right 20 _
    · have h1 : 60 * (i + 1) ≤ 60 * n := Nat.mul_le_mul_left 60 (Nat.succ_le_of_lt hi)
      have h2 : 60 * (i + 1) / n ≤ 60 * n / n := Nat.div_le_div_right h1
      have h3 : 60 * n / n = 60 := Nat.mul_div_cancel _ hn
      simp only [chunkProgressPct]
      omega
  · intro n hn
    simp only [chunkProgressPct]
    have h1 : n - 1 + 1 = n := Nat.succ_pred_eq_of_pos hn
    rw [h1]
    have h2 : 60 * n / n = 60 := Nat.mul_div_cancel _ hn
    omega
  · intro env id now req store it stats chunks hge hok hch k hk
    obtain ⟨pt, cfg, sk, chunks2, loopEvs, processed, fo, sr,
      hpt, hcfg, hsk, hch2, hloop, hstitch, hit, hstats, hevs, hst⟩ :=
      run_chunked_ok env id now req store it stats hge hok
    have hcc : chunks = chunks2 := Except.ok.inj (hch.symm.trans hch2)
    subst hcc
    refine ⟨cfg.targetMid ⌈/⌉ chunks.length, ?_⟩
    have hinf := (chunkLoop_ok_spec env cfg sk chunks.length chunks 0 0
      loopEvs processed hloop).2.2.2 k hk
    simp only [Nat.zero_add] at hinf
    obtain ⟨s, t, hst2⟩ := hinf
    rw [hevs]
    refine ⟨[evInitializing, evSkeleton, evChunking] ++ s, t ++ [evStitching, evFinalizing], ?_⟩
    rw [← hst2]
    simp

/-- C8 witness: chunk 0 of the 2-chunk loop. -/
theorem chunk_progress_interpolation_witness :
    List.IsInfix [evChunkProgress (0 + 0) 2,
      Event.reconstructCall (0 + 0) 2 (cfgT.targetMid ⌈/⌉ 2)] evsT ∧
    (20 ≤ chunkProgressPct 0 2 ∧ chunkProgressPct 0 2 ≤ 80) ∧
    chunkProgressPct (2 - 1) 2 = 80 :=
  ⟨chunk_progress_interpolation.1 envShortOk cfgT testSkeleton 2 chunksT 0 0 evsT psT
      (by rfl) 0 (by decide),
   chunk_progress_interpolation.2.1 0 2 (by decide) (by decide),
   chunk_progress_interpolation.2.2.1 2 (by decide)⟩
